import Mathlib

/-!
Verification development for `gh-pr-feedback` (src/main.go).

The Go program is embedded shallowly: the pure helpers (`extractRunID`,
`formatTimeAgo`, `formatDuration`, `printDiffHunk`, argument parsing, the
filtering loops of `getPRFeedback` and `getStatusChecks`, the JSON field
emission of `encoding/json` on the tagged structs, and the human-readable
renderer) become Lean functions over explicit inputs.  Effects are passed in
explicitly: the results of the HTTP fetches and of the `gh` subprocess become
`Except`-valued fields of a `FetchResults` record, text written to standard
output becomes the returned `String`, warnings written to standard error
become a returned list of strings, and the clock read performed by
`time.Since` during rendering becomes a `now : Int` argument (epoch seconds;
time is modelled at second granularity).  Go `*int` pointer fields become
`Option Int`; machine integers are modelled as unbounded `Int` (the program
performs no arithmetic that can overflow on its intended inputs, and
`strconv.Atoi`'s 64-bit range check is modelled explicitly).
-/

set_option maxHeartbeats 1600000

/-- `ReviewComment` (main.go lines 29-45): the unified comment model.  Go
pointer fields (`*int`) become `Option Int`; the struct tags that drive JSON
emission are modelled separately by `marshalReviewComment`. -/
structure ReviewComment where
  id : Int
  body : String
  path : String
  line : Option Int
  startLine : Option Int
  originalLine : Option Int
  diffHunk : String
  author : String
  authorAssoc : String
  state : String
  inReplyTo : Option Int
  createdAt : String
  updatedAt : String
  outdated : Bool
  subjectType : String
  deriving Repr, DecidableEq

/-- `StatusCheck` (main.go lines 47-57): one CI check result. -/
structure StatusCheck where
  name : String
  status : String
  conclusion : String
  detailsURL : String
  workflowName : String
  runID : String
  startedAt : String
  completedAt : String
  checkCommand : String
  deriving Repr, DecidableEq

/-- `PRFeedback` (main.go lines 59-66): the aggregate report. -/
structure PRFeedback where
  prNumber : Int
  title : String
  url : String
  comments : List ReviewComment
  generalIssues : List ReviewComment
  statusChecks : List StatusCheck
  deriving Repr, DecidableEq

/-- The anonymous PR-details decoding struct of `getPRFeedback`
(main.go lines 235-239). -/
structure PRMeta where
  number : Int
  title : String
  htmlURL : String
  deriving Repr, DecidableEq

/-- The anonymous review-comment decoding struct of `getPRFeedback`
(main.go lines 253-270); the nested `User.Login` field is flattened to
`userLogin`. -/
structure RawReviewComment where
  id : Int
  body : String
  path : String
  line : Option Int
  startLine : Option Int
  originalLine : Option Int
  diffHunk : String
  authorAssoc : String
  userLogin : String
  inReplyToID : Option Int
  createdAt : String
  updatedAt : String
  outdated : Bool
  subjectType : String
  deriving Repr, DecidableEq

/-- The anonymous issue-comment decoding struct of `getPRFeedback`
(main.go lines 302-311). -/
structure RawIssueComment where
  id : Int
  body : String
  authorAssoc : String
  userLogin : String
  createdAt : String
  updatedAt : String
  deriving Repr, DecidableEq

/-- The anonymous review decoding struct of `getPRFeedback`
(main.go lines 333-342). -/
structure RawReview where
  id : Int
  body : String
  state : String
  userLogin : String
  authorAssoc : String
  submittedAt : String
  deriving Repr, DecidableEq

/-- One entry of the anonymous `statusCheckRollup` decoding struct of
`getStatusChecks` (main.go lines 385-395). -/
structure RawRollupCheck where
  name : String
  status : String
  conclusion : String
  detailsURL : String
  workflowName : String
  startedAt : String
  completedAt : String
  deriving Repr, DecidableEq

/-- `hasPrefixL s p` is true when the word `p` starts the word `s`
(character-list form of the prefix test underlying `strings.Contains`). -/
def hasPrefixL : List Char → List Char → Bool
  | _, [] => true
  | [], _ :: _ => false
  | a :: s, b :: p => a == b && hasPrefixL s p

/-- `containsL s p` is true when `p` occurs contiguously inside `s`. -/
def containsL : List Char → List Char → Bool
  | [], p => hasPrefixL [] p
  | a :: t, p => hasPrefixL (a :: t) p || containsL t p

/-- Model of the Go standard-library call `strings.Contains(s, sub)`
(substring containment). -/
def goContains (s sub : String) : Bool :=
  containsL s.toList sub.toList

/-- Splitting a character list at every occurrence of `sep`, keeping empty
segments: the single-separator case of Go `strings.Split`. -/
def splitCh (sep : Char) : List Char → List (List Char)
  | [] => [[]]
  | c :: rest =>
    if c = sep then [] :: splitCh sep rest
    else
      match splitCh sep rest with
      | [] => [[c]]
      | l :: ls => (c :: l) :: ls

/-- Model of `strings.Split(s, sep)` for a one-character separator. -/
def goSplit (sep : Char) (s : String) : List String :=
  (splitCh sep s.toList).map String.mk

/-- The scanning loop of `extractRunID` (main.go lines 435-439): the first
part equal to `"runs"` that has a successor yields that successor. -/
def findAfterRuns : List String → String
  | [] => ""
  | p :: rest =>
    if p = "runs" then
      match rest with
      | q :: _ => q
      | [] => findAfterRuns rest
    else findAfterRuns rest

/-- `extractRunID` (main.go lines 432-441): split the details URL on `/` and
return the part following the first `"runs"` part, or `""`. -/
def extractRunID (detailsURL : String) : String :=
  findAfterRuns (goSplit '/' detailsURL)

/-- The failing-conclusion test of `getStatusChecks` (main.go line 405). -/
def failingConclusion (conclusion : String) : Bool :=
  conclusion == "FAILURE" || conclusion == "ERROR" || conclusion == "CANCELLED"

/-- The per-check construction and run-ID enrichment inside the loop of
`getStatusChecks` (main.go lines 406-423). -/
def mkStatusCheck (check : RawRollupCheck) : StatusCheck :=
  let base : StatusCheck :=
    { name := check.name, status := check.status, conclusion := check.conclusion,
      detailsURL := check.detailsURL, workflowName := check.workflowName,
      runID := "", startedAt := check.startedAt, completedAt := check.completedAt,
      checkCommand := "" }
  if goContains check.detailsURL "/actions/runs/" then
    let runID := extractRunID check.detailsURL
    if runID ≠ "" then
      { base with runID := runID, checkCommand := "gh run view " ++ runID }
    else base
  else base

/-- The filtering loop of `getStatusChecks` (main.go lines 402-427): keep
exactly the checks with failing conclusion, each enriched by
`mkStatusCheck`. -/
def statusChecksOf : List RawRollupCheck → List StatusCheck
  | [] => []
  | check :: rest =>
    if failingConclusion check.conclusion then
      mkStatusCheck check :: statusChecksOf rest
    else statusChecksOf rest

theorem hasPrefixL_append_right {s : List Char} :
    ∀ {x y : List Char}, hasPrefixL s (x ++ y) = true → containsL s y = true := by
  induction s with
  | nil =>
    intro x y h
    cases x with
    | nil => simpa [containsL] using h
    | cons b p => simp [hasPrefixL] at h
  | cons a t ih =>
    intro x y h
    cases x with
    | nil =>
      simp only [List.nil_append] at h
      simp [containsL, h]
    | cons b p =>
      simp only [List.cons_append, hasPrefixL, Bool.and_eq_true] at h
      have := ih (x := p) (y := y) h.2
      simp [containsL, this]

theorem containsL_append_right :
    ∀ {s x y : List Char}, containsL s (x ++ y) = true → containsL s y = true := by
  intro s
  induction s with
  | nil =>
    intro x y h
    simp only [containsL] at h ⊢
    cases x with
    | nil => simpa using h
    | cons b p => simp [hasPrefixL] at h
  | cons a t ih =>
    intro x y h
    simp only [containsL, Bool.or_eq_true] at h ⊢
    rcases h with h | h
    · rcases (by simpa [containsL, Bool.or_eq_true] using
        hasPrefixL_append_right (s := a :: t) (x := x) (y := y) h) with h' | h'
      · exact Or.inl h'
      · exact Or.inr h'
    · exact Or.inr (ih h)

/-- A URL that does not contain `"/runs/"` does not contain
`"/actions/runs/"` either. -/
theorem not_contains_actions_runs {url : String}
    (h : goContains url "/runs/" = false) :
    goContains url "/actions/runs/" = false := by
  by_contra hne
  have htrue : goContains url "/actions/runs/" = true := by
    cases hval : goContains url "/actions/runs/" with
    | false => exact absurd hval hne
    | true => rfl
  have hsplit : ("/actions/runs/").toList = ("/actions").toList ++ ("/runs/").toList := by
    decide
  have : containsL url.toList (("/actions").toList ++ ("/runs/").toList) = true := by
    simpa [goContains, hsplit] using htrue
  have := containsL_append_right (s := url.toList) this
  simp [goContains] at h
  simp [h] at this

theorem mkStatusCheck_conclusion (check : RawRollupCheck) :
    (mkStatusCheck check).conclusion = check.conclusion := by
  unfold mkStatusCheck
  by_cases h : goContains check.detailsURL "/actions/runs/" <;>
    by_cases h2 : extractRunID check.detailsURL = "" <;> simp [h, h2]

theorem mkStatusCheck_detailsURL (check : RawRollupCheck) :
    (mkStatusCheck check).detailsURL = check.detailsURL := by
  unfold mkStatusCheck
  by_cases h : goContains check.detailsURL "/actions/runs/" <;>
    by_cases h2 : extractRunID check.detailsURL = "" <;> simp [h, h2]

/-- Claim C2: `getStatusChecks` keeps exactly the rollup entries whose
conclusion is in {FAILURE, ERROR, CANCELLED}: the produced list is the
filter-and-map of the rollup, every produced check has a failing conclusion
(so a non-failing entry never appears), every failing entry is retained, and
every produced check arises from a failing entry. -/
theorem failing_checks_filter (rollup : List RawRollupCheck) :
    statusChecksOf rollup =
      (rollup.filter (fun c => failingConclusion c.conclusion)).map mkStatusCheck ∧
    (∀ s ∈ statusChecksOf rollup, failingConclusion s.conclusion = true) ∧
    (∀ c ∈ rollup, failingConclusion c.conclusion = true →
      mkStatusCheck c ∈ statusChecksOf rollup) ∧
    (∀ s ∈ statusChecksOf rollup,
      ∃ c ∈ rollup, failingConclusion c.conclusion = true ∧ s = mkStatusCheck c) := by
  refine ⟨?_, ?_, ?_, ?_⟩
  · induction rollup with
    | nil => rfl
    | cons c rest ih =>
      by_cases hc : failingConclusion c.conclusion
      · simp [statusChecksOf, List.filter, hc, ih]
      · simp [statusChecksOf, List.filter, hc, ih]
  · induction rollup with
    | nil => intro s hs; simp [statusChecksOf] at hs
    | cons c rest ih =>
      intro s hs
      by_cases hc : failingConclusion c.conclusion
      · simp only [statusChecksOf, if_pos hc, List.mem_cons] at hs
        rcases hs with rfl | hs
        · rw [mkStatusCheck_conclusion]; exact hc
        · exact ih s hs
      · simp only [statusChecksOf, if_neg hc] at hs
        exact ih s hs
  · induction rollup with
    | nil => intro c hc; simp at hc
    | cons c0 rest ih =>
      intro c hc hfail
      rcases List.mem_cons.mp hc with rfl | hmem
      · simp [statusChecksOf, if_pos hfail]
      · by_cases hc0 : failingConclusion c0.conclusion
        · simp only [statusChecksOf, if_pos hc0, List.mem_cons]
          exact Or.inr (ih c hmem hfail)
        · simp only [statusChecksOf, if_neg hc0]
          exact ih c hmem hfail
  · induction rollup with
    | nil => intro s hs; simp [statusChecksOf] at hs
    | cons c0 rest ih =>
      intro s hs
      by_cases hc0 : failingConclusion c0.conclusion
      · simp only [statusChecksOf, if_pos hc0, List.mem_cons] at hs
        rcases hs with rfl | hs
        · exact ⟨c0, List.mem_cons_self c0 rest, hc0, rfl⟩
        · rcases ih s hs with ⟨c, hcm, hcf, hceq⟩
          exact ⟨c, List.mem_cons_of_mem c0 hcm, hcf, hceq⟩
      · simp only [statusChecksOf, if_neg hc0] at hs
        rcases ih s hs with ⟨c, hcm, hcf, hceq⟩
        exact ⟨c, List.mem_cons_of_mem c0 hcm, hcf, hceq⟩

/-- Concrete witness data for claim C2. -/
def witnessFailingCheck : RawRollupCheck :=
  { name := "Shellcheck", status := "COMPLETED", conclusion := "FAILURE",
    detailsURL := "https://github.com/o/r/actions/runs/16637926739/job/123",
    workflowName := "CI", startedAt := "", completedAt := "" }

/-- Concrete witness data for claim C2: a passing check. -/
def witnessPassingCheck : RawRollupCheck :=
  { name := "Build", status := "COMPLETED", conclusion := "SUCCESS",
    detailsURL := "https://github.com/o/r/actions/runs/1/job/2",
    workflowName := "CI", startedAt := "", completedAt := "" }

theorem failing_checks_filter_witness :
    mkStatusCheck witnessFailingCheck ∈
      statusChecksOf [witnessPassingCheck, witnessFailingCheck] ∧
    ∀ s ∈ statusChecksOf [witnessPassingCheck, witnessFailingCheck],
      failingConclusion s.conclusion = true := by
  constructor
  · exact (failing_checks_filter [witnessPassingCheck, witnessFailingCheck]).2.2.1
      witnessFailingCheck (by decide) (by decide)
  · exact (failing_checks_filter [witnessPassingCheck, witnessFailingCheck]).2.1

/-- Claim C6: on the documented details URL, `extractRunID` yields
`"16637926739"` and the synthesized follow-up command is
`"gh run view 16637926739"`; and a check whose details URL does not contain
`"/runs/"` gets neither a run ID nor a command. -/
theorem extract_run_id_spec :
    extractRunID "https://github.com/o/r/actions/runs/16637926739/job/123" =
      "16637926739" ∧
    (mkStatusCheck witnessFailingCheck).runID = "16637926739" ∧
    (mkStatusCheck witnessFailingCheck).checkCommand = "gh run view 16637926739" ∧
    ∀ c : RawRollupCheck, goContains c.detailsURL "/runs/" = false →
      (mkStatusCheck c).runID = "" ∧ (mkStatusCheck c).checkCommand = "" := by
  refine ⟨by decide, by decide, by decide, ?_⟩
  intro c h
  have hna := not_contains_actions_runs h
  unfold mkStatusCheck
  simp [hna]

/-- Concrete witness data for claim C6: a check from an external CI system. -/
def witnessExternalCheck : RawRollupCheck :=
  { name := "external", status := "COMPLETED", conclusion := "ERROR",
    detailsURL := "https://ci.example.com/build/99",
    workflowName := "", startedAt := "", completedAt := "" }

theorem extract_run_id_spec_witness :
    (mkStatusCheck witnessExternalCheck).runID = "" ∧
    (mkStatusCheck witnessExternalCheck).checkCommand = "" :=
  extract_run_id_spec.2.2.2 witnessExternalCheck (by decide)

/-- Claim C10: for every check produced by `getStatusChecks`, the run ID is
non-empty exactly when the follow-up command is non-empty; when present the
command is `"gh run view "` followed by the run ID; and both are absent when
the details URL lacks `"/actions/runs/"` or `extractRunID` returns `""`. -/
theorem run_id_check_command_invariant (rollup : List RawRollupCheck) :
    ∀ s ∈ statusChecksOf rollup,
      (s.runID = "" ↔ s.checkCommand = "") ∧
      (s.runID ≠ "" → s.checkCommand = "gh run view " ++ s.runID) ∧
      ((goContains s.detailsURL "/actions/runs/" = false ∨
        extractRunID s.detailsURL = "") → s.runID = "" ∧ s.checkCommand = "") := by
  have key : ∀ c : RawRollupCheck,
      ((mkStatusCheck c).runID = "" ↔ (mkStatusCheck c).checkCommand = "") ∧
      ((mkStatusCheck c).runID ≠ "" →
        (mkStatusCheck c).checkCommand = "gh run view " ++ (mkStatusCheck c).runID) ∧
      ((goContains (mkStatusCheck c).detailsURL "/actions/runs/" = false ∨
        extractRunID (mkStatusCheck c).detailsURL = "") →
        (mkStatusCheck c).runID = "" ∧ (mkStatusCheck c).checkCommand = "") := by
    intro c
    rw [mkStatusCheck_detailsURL]
    by_cases hurl : goContains c.detailsURL "/actions/runs/"
    · by_cases hrid : extractRunID c.detailsURL = ""
      · simp [mkStatusCheck, hurl, hrid]
      · have hcmdne : ("gh run view " ++ extractRunID c.detailsURL) ≠ "" := by
          intro hcontra
          have hlen := congrArg String.length hcontra
          rw [String.length_append] at hlen
          simp at hlen
          exact absurd hlen.1 (by decide)
        simp [mkStatusCheck, hurl, hrid, hcmdne]
    · have hurl' : goContains c.detailsURL "/actions/runs/" = false := by
        cases hval : goContains c.detailsURL "/actions/runs/" with
        | false => rfl
        | true => exact absurd hval hurl
      simp [mkStatusCheck, hurl']
  intro s hs
  rcases (failing_checks_filter rollup).2.2.2 s hs with ⟨c, _, _, rfl⟩
  exact key c

theorem run_id_check_command_invariant_witness :
    (mkStatusCheck witnessFailingCheck).checkCommand =
      "gh run view " ++ (mkStatusCheck witnessFailingCheck).runID :=
  ((run_id_check_command_invariant [witnessFailingCheck]
      (mkStatusCheck witnessFailingCheck) (by decide)).2.1 (by decide))

/-- The per-comment mapping inside the filtering loop of `getPRFeedback`
(main.go lines 281-297). -/
def mapReviewComment (c : RawReviewComment) : ReviewComment :=
  { id := c.id, body := c.body, path := c.path, line := c.line,
    startLine := c.startLine, originalLine := c.originalLine,
    diffHunk := c.diffHunk, author := c.userLogin, authorAssoc := c.authorAssoc,
    state := "unresolved", inReplyTo := c.inReplyToID, createdAt := c.createdAt,
    updatedAt := c.updatedAt, outdated := c.outdated, subjectType := c.subjectType }

/-- The review-comment filtering loop of `getPRFeedback` (main.go lines
279-299): keep exactly the top-level comments (`InReplyToID == nil`). -/
def filterReviewComments : List RawReviewComment → List ReviewComment
  | [] => []
  | c :: rest =>
    if c.inReplyToID.isNone then mapReviewComment c :: filterReviewComments rest
    else filterReviewComments rest

/-- The per-comment mapping of the issue-comment loop of `getPRFeedback`
(main.go lines 320-330); unset Go struct fields take their zero values. -/
def mapIssueComment (c : RawIssueComment) : ReviewComment :=
  { id := c.id, body := c.body, path := "", line := none, startLine := none,
    originalLine := none, diffHunk := "", author := c.userLogin,
    authorAssoc := c.authorAssoc, state := "unresolved", inReplyTo := none,
    createdAt := c.createdAt, updatedAt := c.updatedAt, outdated := false,
    subjectType := "" }

/-- The retention test of the review-summary loop of `getPRFeedback`
(main.go line 352). -/
def keepReview (r : RawReview) : Bool :=
  r.body != "" && r.state == "COMMENTED"

/-- The per-review mapping of the review-summary loop of `getPRFeedback`
(main.go lines 353-361). -/
def mapReview (r : RawReview) : ReviewComment :=
  { id := r.id, body := r.body, path := "", line := none, startLine := none,
    originalLine := none, diffHunk := "", author := r.userLogin,
    authorAssoc := r.authorAssoc, state := "unresolved", inReplyTo := none,
    createdAt := r.submittedAt, updatedAt := r.submittedAt, outdated := false,
    subjectType := "" }

/-- The review-summary loop of `getPRFeedback` (main.go lines 350-363): keep
exactly the reviews with non-empty body and state `"COMMENTED"`. -/
def reviewSummaries : List RawReview → List ReviewComment
  | [] => []
  | r :: rest =>
    if keepReview r then mapReview r :: reviewSummaries rest
    else reviewSummaries rest

/-- The results of the five external calls made by `getPRFeedback`: the four
REST fetches (main.go lines 241, 273, 314, 345) and the `gh` subprocess plus
JSON decode of `getStatusChecks` (main.go lines 379-400), each passed in as
an explicit `Except` value. -/
structure FetchResults where
  pr : Except String PRMeta
  reviewComments : Except String (List RawReviewComment)
  issueComments : Except String (List RawIssueComment)
  reviews : Except String (List RawReview)
  statusRollup : Except String (List RawRollupCheck)

/-- `getPRFeedback` (main.go lines 233-375) over explicit fetch results.
The first component is the Go return value (aggregate or error); the second
collects the lines written to standard error (the non-fatal status-check
warning of lines 367-370). -/
def getPRFeedback (fr : FetchResults) : Except String PRFeedback × List String :=
  match fr.pr with
  | .error e => (.error ("failed to fetch PR details: " ++ e), [])
  | .ok pr =>
    match fr.reviewComments with
    | .error e => (.error ("failed to fetch review comments: " ++ e), [])
    | .ok rcs =>
      match fr.issueComments with
      | .error e => (.error ("failed to fetch issue comments: " ++ e), [])
      | .ok ics =>
        match fr.reviews with
        | .error e => (.error ("failed to fetch reviews: " ++ e), [])
        | .ok rvs =>
          let base : PRFeedback :=
            { prNumber := pr.number, title := pr.title, url := pr.htmlURL,
              comments := filterReviewComments rcs,
              generalIssues := ics.map mapIssueComment ++ reviewSummaries rvs,
              statusChecks := [] }
          match fr.statusRollup with
          | .error e =>
            (.ok base, ["Warning: failed to fetch status checks: " ++ e])
          | .ok rollup => (.ok { base with statusChecks := statusChecksOf rollup }, [])

/-- Claim C1: the anchored-comments collection keeps exactly the raw review
comments with null reply-linkage: the collection is the filter-and-map of
the raw list, every comment in it has null reply-linkage and state
`"unresolved"` (so a reply never appears), the image of a reply is never a
member, every non-reply is retained, the mapping is verbatim on author,
association and path/line fields, and `getPRFeedback` stores exactly this
collection in the aggregate. -/
theorem anchored_comments_exclude_replies (raws : List RawReviewComment) :
    filterReviewComments raws =
      (raws.filter (fun c => c.inReplyToID.isNone)).map mapReviewComment ∧
    (∀ out ∈ filterReviewComments raws,
      out.inReplyTo = none ∧ out.state = "unresolved") ∧
    (∀ c ∈ raws, c.inReplyToID ≠ none →
      mapReviewComment c ∉ filterReviewComments raws) ∧
    (∀ c ∈ raws, c.inReplyToID = none →
      mapReviewComment c ∈ filterReviewComments raws) ∧
    (∀ out ∈ filterReviewComments raws,
      ∃ c ∈ raws, c.inReplyToID = none ∧ out = mapReviewComment c) ∧
    (∀ c : RawReviewComment,
      (mapReviewComment c).author = c.userLogin ∧
      (mapReviewComment c).authorAssoc = c.authorAssoc ∧
      (mapReviewComment c).path = c.path ∧
      (mapReviewComment c).line = c.line ∧
      (mapReviewComment c).startLine = c.startLine ∧
      (mapReviewComment c).originalLine = c.originalLine ∧
      (mapReviewComment c).state = "unresolved") ∧
    (∀ fr f ws rcs, getPRFeedback fr = (Except.ok f, ws) →
      fr.reviewComments = Except.ok rcs → f.comments = filterReviewComments rcs) := by
  have hexact : ∀ out ∈ filterReviewComments raws,
      ∃ c ∈ raws, c.inReplyToID = none ∧ out = mapReviewComment c := by
    induction raws with
    | nil => intro out hout; simp [filterReviewComments] at hout
    | cons c0 rest ih =>
      intro out hout
      by_cases hc0 : c0.inReplyToID.isNone
      · simp only [filterReviewComments, if_pos hc0, List.mem_cons] at hout
        rcases hout with rfl | hout
        · exact ⟨c0, List.mem_cons_self c0 rest, Option.isNone_iff_eq_none.mp hc0, rfl⟩
        · rcases ih out hout with ⟨c, hcm, hcn, hce⟩
          exact ⟨c, List.mem_cons_of_mem c0 hcm, hcn, hce⟩
      · simp only [filterReviewComments, if_neg hc0] at hout
        rcases ih out hout with ⟨c, hcm, hcn, hce⟩
        exact ⟨c, List.mem_cons_of_mem c0 hcm, hcn, hce⟩
  have hmem : ∀ out ∈ filterReviewComments raws,
      out.inReplyTo = none ∧ out.state = "unresolved" := by
    intro out hout
    rcases hexact out hout with ⟨c, _, hcn, rfl⟩
    exact ⟨hcn, rfl⟩
  refine ⟨?_, hmem, ?_, ?_, hexact, fun c => ⟨rfl, rfl, rfl, rfl, rfl, rfl, rfl⟩, ?_⟩
  · clear hexact hmem
    induction raws with
    | nil => rfl
    | cons c0 rest ih =>
      by_cases hc0 : c0.inReplyToID.isNone
      · simp [filterReviewComments, List.filter, hc0, ih]
      · simp [filterReviewComments, List.filter, hc0, ih]
  · intro c _ hcr hmem'
    have := (hmem (mapReviewComment c) hmem').1
    exact hcr this
  · intro c hc hcnone
    clear hexact hmem
    induction raws with
    | nil => simp at hc
    | cons c0 rest ih =>
      rcases List.mem_cons.mp hc with rfl | hmem'
      · simp [filterReviewComments, Option.isNone_iff_eq_none.mpr hcnone]
      · by_cases hc0 : c0.inReplyToID.isNone
        · simp only [filterReviewComments, if_pos hc0, List.mem_cons]
          exact Or.inr (ih hmem')
        · simp only [filterReviewComments, if_neg hc0]
          exact ih hmem'
  · intro fr f ws rcs hres hrcs
    rcases fr with ⟨pr, rc, ic, rv, sr⟩
    cases pr with
    | error e => simp [getPRFeedback] at hres
    | ok prv =>
      cases rc with
      | error e => simp [getPRFeedback] at hres
      | ok rcsv =>
        cases ic with
        | error e => simp [getPRFeedback] at hres
        | ok icsv =>
          cases rv with
          | error e => simp [getPRFeedback] at hres
          | ok rvsv =>
            have hrcseq : rcsv = rcs := by
              simpa using hrcs
            subst hrcseq
            cases sr with
            | error e =>
              simp only [getPRFeedback, Prod.mk.injEq, Except.ok.injEq] at hres
              rcases hres with ⟨rfl, -⟩
              rfl
            | ok rollup =>
              simp only [getPRFeedback, Prod.mk.injEq, Except.ok.injEq] at hres
              rcases hres with ⟨rfl, -⟩
              rfl

/-- Concrete witness data for claim C1: a top-level comment. -/
def witnessTopComment : RawReviewComment :=
  { id := 1, body := "fix this", path := "src/main.go", line := some 42,
    startLine := none, originalLine := none, diffHunk := "", authorAssoc := "MEMBER",
    userLogin := "alice", inReplyToID := none, createdAt := "", updatedAt := "",
    outdated := false, subjectType := "" }

/-- Concrete witness data for claim C1: a reply comment. -/
def witnessReplyComment : RawReviewComment :=
  { id := 2, body := "done", path := "src/main.go", line := some 42,
    startLine := none, originalLine := none, diffHunk := "", authorAssoc := "NONE",
    userLogin := "bob", inReplyToID := some 1, createdAt := "", updatedAt := "",
    outdated := false, subjectType := "" }

theorem anchored_comments_exclude_replies_witness :
    mapReviewComment witnessReplyComment ∉
      filterReviewComments [witnessTopComment, witnessReplyComment] ∧
    mapReviewComment witnessTopComment ∈
      filterReviewComments [witnessTopComment, witnessReplyComment] := by
  constructor
  · exact (anchored_comments_exclude_replies
      [witnessTopComment, witnessReplyComment]).2.2.1 witnessReplyComment
      (by decide) (by decide)
  · exact (anchored_comments_exclude_replies
      [witnessTopComment, witnessReplyComment]).2.2.2.1 witnessTopComment
      (by decide) (by decide)

/-- Claim C7: exactly the review entries with non-empty body and state
exactly `"COMMENTED"` become general comments: the produced list is the
filter-and-map of the raw review list, the retention test is literally
"non-empty body and state COMMENTED", every kept entry is retained, every
produced item arises from a kept entry (so reviews in any other state are
dropped even with a non-empty body), and `getPRFeedback` appends this list
to the general-comments collection after the issue comments. -/
theorem review_summaries_filter (reviews : List RawReview) :
    reviewSummaries reviews = (reviews.filter keepReview).map mapReview ∧
    (∀ r : RawReview, keepReview r = true ↔ (r.body ≠ "" ∧ r.state = "COMMENTED")) ∧
    (∀ r ∈ reviews, r.body ≠ "" → r.state = "COMMENTED" →
      mapReview r ∈ reviewSummaries reviews) ∧
    (∀ g ∈ reviewSummaries reviews,
      ∃ r ∈ reviews, r.body ≠ "" ∧ r.state = "COMMENTED" ∧ g = mapReview r) ∧
    (∀ fr f ws ics rvs, getPRFeedback fr = (Except.ok f, ws) →
      fr.issueComments = Except.ok ics → fr.reviews = Except.ok rvs →
      f.generalIssues = ics.map mapIssueComment ++ reviewSummaries rvs) := by
  have hiff : ∀ r : RawReview, keepReview r = true ↔ (r.body ≠ "" ∧ r.state = "COMMENTED") := by
    intro r
    simp [keepReview]
  refine ⟨?_, hiff, ?_, ?_, ?_⟩
  · induction reviews with
    | nil => rfl
    | cons r0 rest ih =>
      by_cases hr0 : keepReview r0
      · simp [reviewSummaries, List.filter, hr0, ih]
      · simp [reviewSummaries, List.filter, hr0, ih]
  · intro r hr hbody hstate
    have hkeep : keepReview r = true := (hiff r).mpr ⟨hbody, hstate⟩
    clear hiff
    induction reviews with
    | nil => simp at hr
    | cons r0 rest ih =>
      rcases List.mem_cons.mp hr with rfl | hmem
      · simp [reviewSummaries, hkeep]
      · by_cases hr0 : keepReview r0
        · simp only [reviewSummaries, if_pos hr0, List.mem_cons]
          exact Or.inr (ih hmem)
        · simp only [reviewSummaries, if_neg hr0]
          exact ih hmem
  · intro g hg
    clear hiff
    induction reviews with
    | nil => simp [reviewSummaries] at hg
    | cons r0 rest ih =>
      by_cases hr0 : keepReview r0
      · simp only [reviewSummaries, if_pos hr0, List.mem_cons] at hg
        rcases hg with rfl | hg
        · have := ((by
            intro r
            simp [keepReview] : ∀ r : RawReview, keepReview r = true ↔
              (r.body ≠ "" ∧ r.state = "COMMENTED")) r0).mp hr0
          exact ⟨r0, List.mem_cons_self r0 rest, this.1, this.2, rfl⟩
        · rcases ih hg with ⟨r, hrm, h1, h2, h3⟩
          exact ⟨r, List.mem_cons_of_mem r0 hrm, h1, h2, h3⟩
      · simp only [reviewSummaries, if_neg hr0] at hg
        rcases ih hg with ⟨r, hrm, h1, h2, h3⟩
        exact ⟨r, List.mem_cons_of_mem r0 hrm, h1, h2, h3⟩
  · intro fr f ws ics rvs hres hics hrvs
    rcases fr with ⟨pr, rc, ic, rv, sr⟩
    cases pr with
    | error e => simp [getPRFeedback] at hres
    | ok prv =>
      cases rc with
      | error e => simp [getPRFeedback] at hres
      | ok rcsv =>
        cases ic with
        | error e => simp [getPRFeedback] at hres
        | ok icsv =>
          cases rv with
          | error e => simp [getPRFeedback] at hres
          | ok rvsv =>
            have h1 : icsv = ics := by simpa using hics
            have h2 : rvsv = rvs := by simpa using hrvs
            subst h1
            subst h2
            cases sr with
            | error e =>
              simp only [getPRFeedback, Prod.mk.injEq, Except.ok.injEq] at hres
              rcases hres with ⟨rfl, -⟩
              rfl
            | ok rollup =>
              simp only [getPRFeedback, Prod.mk.injEq, Except.ok.injEq] at hres
              rcases hres with ⟨rfl, -⟩
              rfl

/-- Concrete witness data for claim C7: a plain-comment review. -/
def witnessCommentedReview : RawReview :=
  { id := 10, body := "looks odd", state := "COMMENTED", userLogin := "carol",
    authorAssoc := "OWNER", submittedAt := "" }

/-- Concrete witness data for claim C7: a changes-requested review with a
non-empty body. -/
def witnessChangesReview : RawReview :=
  { id := 11, body := "please fix", state := "CHANGES_REQUESTED",
    userLogin := "dave", authorAssoc := "MEMBER", submittedAt := "" }

theorem review_summaries_filter_witness :
    mapReview witnessCommentedReview ∈
      reviewSummaries [witnessChangesReview, witnessCommentedReview] ∧
    ∀ g ∈ reviewSummaries [witnessChangesReview, witnessCommentedReview],
      ∃ r ∈ [witnessChangesReview, witnessCommentedReview],
        r.body ≠ "" ∧ r.state = "COMMENTED" ∧ g = mapReview r := by
  constructor
  · exact (review_summaries_filter [witnessChangesReview, witnessCommentedReview]).2.2.1
      witnessCommentedReview (by decide) (by decide) (by decide)
  · exact (review_summaries_filter [witnessChangesReview, witnessCommentedReview]).2.2.2.1

/-- Claim C8: a failure of any of the four REST fetches makes `getPRFeedback`
return an error with no aggregate, while a failure of the status-check
rollup is non-fatal: the aggregate is returned with an empty status-checks
collection and a single warning line on standard error. -/
theorem checks_failure_nonfatal (fr : FetchResults) :
    (((∃ e, fr.pr = Except.error e) ∨ (∃ e, fr.reviewComments = Except.error e) ∨
      (∃ e, fr.issueComments = Except.error e) ∨ (∃ e, fr.reviews = Except.error e)) →
      ∃ m, (getPRFeedback fr).1 = Except.error m) ∧
    (∀ pr rcs ics rvs e, fr.pr = Except.ok pr → fr.reviewComments = Except.ok rcs →
      fr.issueComments = Except.ok ics → fr.reviews = Except.ok rvs →
      fr.statusRollup = Except.error e →
      ∃ f, getPRFeedback fr =
          (Except.ok f, ["Warning: failed to fetch status checks: " ++ e]) ∧
        f.statusChecks = []) := by
  rcases fr with ⟨pr, rc, ic, rv, sr⟩
  constructor
  · rintro (⟨e, he⟩ | ⟨e, he⟩ | ⟨e, he⟩ | ⟨e, he⟩) <;>
      cases pr <;> cases rc <;> cases ic <;> cases rv <;> cases sr <;>
      simp_all [getPRFeedback]
  · intro prv rcs ics rvs e hpr hrc hic hrv hsr
    cases pr <;> cases rc <;> cases ic <;> cases rv <;> cases sr <;>
      simp_all [getPRFeedback]

/-- Concrete fetch results for claim C8's witness: four successful REST
fetches and a failing rollup fetch. -/
def witnessFetchResults : FetchResults :=
  { pr := Except.ok { number := 117, title := "T", htmlURL := "u" },
    reviewComments := Except.ok [], issueComments := Except.ok [],
    reviews := Except.ok [], statusRollup := Except.error "gh exited 1" }

/-- Concrete fetch results for claim C8's witness: a failing REST fetch. -/
def witnessFetchResultsBad : FetchResults :=
  { pr := Except.ok { number := 117, title := "T", htmlURL := "u" },
    reviewComments := Except.error "404", issueComments := Except.ok [],
    reviews := Except.ok [], statusRollup := Except.ok [] }

theorem checks_failure_nonfatal_witness :
    (∃ f, getPRFeedback witnessFetchResults =
        (Except.ok f, ["Warning: failed to fetch status checks: " ++ "gh exited 1"]) ∧
      f.statusChecks = []) ∧
    ∃ m, (getPRFeedback witnessFetchResultsBad).1 = Except.error m := by
  constructor
  · exact (checks_failure_nonfatal witnessFetchResults).2
      { number := 117, title := "T", htmlURL := "u" } [] [] [] "gh exited 1"
      rfl rfl rfl rfl rfl
  · exact (checks_failure_nonfatal witnessFetchResultsBad).1
      (Or.inr (Or.inl ⟨"404", rfl⟩))

/-- `formatTimeAgo` (main.go lines 636-673) at second granularity: the
elapsed duration `d` is in seconds (Go works on a nanosecond `Duration`;
every threshold is a whole number of seconds and every division below is
only reached for `d ≥ 60`, where Go's float truncation agrees with integer
division). -/
def formatTimeAgo (d : Int) : String :=
  if d < 60 then "just now"
  else if d < 3600 then
    let mins := d / 60
    if mins = 1 then "1 minute ago" else toString mins ++ " minutes ago"
  else if d < 86400 then
    let hours := d / 3600
    if hours = 1 then "1 hour ago" else toString hours ++ " hours ago"
  else
    let days := d / 86400
    if days = 1 then "1 day ago"
    else if days < 30 then toString days ++ " days ago"
    else if days < 365 then
      let months := days / 30
      if months = 1 then "1 month ago" else toString months ++ " months ago"
    else
      let years := days / 365
      if years = 1 then "1 year ago" else toString years ++ " years ago"

/-- Claim C9: `formatTimeAgo` is the documented step function of elapsed
seconds on non-negative durations — "just now" under one minute, truncated
minutes under one hour, truncated hours under 24 hours, truncated days under
30 days, 30-day months under 365 days, 365-day years beyond, with the
singular form exactly when the count is 1 — and it takes the six documented
example values. -/
theorem format_time_ago_spec :
    (∀ d : Int, 0 ≤ d →
      (d < 60 → formatTimeAgo d = "just now") ∧
      (60 ≤ d → d < 3600 → formatTimeAgo d =
        if d / 60 = 1 then "1 minute ago" else toString (d / 60) ++ " minutes ago") ∧
      (3600 ≤ d → d < 86400 → formatTimeAgo d =
        if d / 3600 = 1 then "1 hour ago" else toString (d / 3600) ++ " hours ago") ∧
      (86400 ≤ d → d < 30 * 86400 → formatTimeAgo d =
        if d / 86400 = 1 then "1 day ago" else toString (d / 86400) ++ " days ago") ∧
      (30 * 86400 ≤ d → d < 365 * 86400 → formatTimeAgo d =
        if d / 86400 / 30 = 1 then "1 month ago"
        else toString (d / 86400 / 30) ++ " months ago") ∧
      (365 * 86400 ≤ d → formatTimeAgo d =
        if d / 86400 / 365 = 1 then "1 year ago"
        else toString (d / 86400 / 365) ++ " years ago")) ∧
    formatTimeAgo 30 = "just now" ∧
    formatTimeAgo 90 = "1 minute ago" ∧
    formatTimeAgo 7200 = "2 hours ago" ∧
    formatTimeAgo (26 * 3600) = "1 day ago" ∧
    formatTimeAgo (40 * 86400) = "1 month ago" ∧
    formatTimeAgo (400 * 86400) = "1 year ago" := by
  refine ⟨?_, by decide, by decide, by decide, by decide, by decide, by decide⟩
  intro d _
  refine ⟨?_, ?_, ?_, ?_, ?_, ?_⟩
  · intro h1
    simp only [formatTimeAgo, if_pos h1]
  · intro h1 h2
    simp only [formatTimeAgo]
    rw [if_neg (by omega), if_pos h2]
  · intro h1 h2
    simp only [formatTimeAgo]
    rw [if_neg (by omega), if_neg (by omega), if_pos h2]
  · intro h1 h2
    have hq1 : (1 : Int) ≤ d / 86400 := by omega
    have hq2 : d / 86400 < 30 := by omega
    simp only [formatTimeAgo]
    rw [if_neg (by omega), if_neg (by omega), if_neg (by omega)]
    by_cases hone : d / 86400 = 1
    · rw [if_pos hone, if_pos hone]
    · rw [if_neg hone, if_neg hone, if_pos hq2]
  · intro h1 h2
    have hq1 : (30 : Int) ≤ d / 86400 := by omega
    have hq2 : d / 86400 < 365 := by omega
    simp only [formatTimeAgo]
    rw [if_neg (by omega), if_neg (by omega), if_neg (by omega),
      if_neg (by omega), if_neg (by omega), if_pos hq2]
  · intro h1
    have hq1 : (365 : Int) ≤ d / 86400 := by omega
    simp only [formatTimeAgo]
    rw [if_neg (by omega), if_neg (by omega), if_neg (by omega),
      if_neg (by omega), if_neg (by omega), if_neg (by omega)]

theorem format_time_ago_spec_witness :
    formatTimeAgo 7200 = "2 hours ago" ∧
    formatTimeAgo 93784 =
      (if (93784 : Int) / 86400 = 1 then "1 day ago"
       else toString ((93784 : Int) / 86400) ++ " days ago") := by
  refine ⟨format_time_ago_spec.2.2.2.1, ?_⟩
  exact ((format_time_ago_spec.1 93784 (by decide)).2.2.2.1 (by decide) (by decide))

/-- Digit-run accumulator of the base-10 integer parse underlying
`strconv.Atoi`. -/
def parseDigitsAux : List Char → Nat → Option Nat
  | [], acc => some acc
  | c :: rest, acc =>
    if c.isDigit then parseDigitsAux rest (acc * 10 + (c.toNat - 48)) else none

/-- Model of the Go standard-library call `strconv.Atoi(s)` used at
main.go line 109: an optional single sign, one or more decimal digits,
nothing else, and the value must fit a 64-bit `int` (overflow makes Go
return an error, modelled as `none`). -/
def goAtoi (s : String) : Option Int :=
  let cs := s.toList
  let signed : Bool × List Char :=
    match cs with
    | '+' :: rest => (false, rest)
    | '-' :: rest => (true, rest)
    | _ => (false, cs)
  match signed.2 with
  | [] => none
  | _ :: _ =>
    match parseDigitsAux signed.2 0 with
    | none => none
    | some n =>
      let v : Int := if signed.1 then -(n : Int) else (n : Int)
      if v < -(2 ^ 63) ∨ 2 ^ 63 ≤ v then none else some v

/-- The `strings.HasPrefix(arg, "-")` test of main.go line 107. -/
def startsWithDash (s : String) : Bool :=
  match s.toList with
  | '-' :: _ => true
  | _ => false

/-- Outcome of the argument-parsing loop of `main` (main.go lines 75-120):
either an early exit (version, help, usage error, missing directory) or the
accumulated flag state the rest of `main` proceeds with. -/
inductive ArgOutcome where
  | versionShown
  | helpShown
  | usageError (msg : String)
  | missingDir (dir : String)
  | proceed (jsonOutput : Bool) (targetDir : String) (prNumber : Int) (repoName : String)
  deriving Repr, DecidableEq

/-- The argument-parsing loop of `main` (main.go lines 75-120) over the
remaining arguments and the accumulated `jsonOutput`, `targetDir`,
`prNumber` and `repoName` state; `dirExists` stands for the `os.Stat`
existence check of line 114. -/
def parseArgs (dirExists : String → Bool) :
    List String → Bool → String → Int → String → ArgOutcome
  | [], j, d, p, r => .proceed j d p r
  | arg :: rest, j, d, p, r =>
    if arg = "--version" ∨ arg = "-v" then .versionShown
    else if arg = "--help" ∨ arg = "-h" then .helpShown
    else if arg = "--json" ∨ arg = "-j" then parseArgs dirExists rest true d p r
    else if arg = "--repo" ∨ arg = "-R" then
      match rest with
      | v :: rest2 => parseArgs dirExists rest2 j d p v
      | [] => .usageError "Error: --repo requires a value"
    else if startsWithDash arg then parseArgs dirExists rest j d p r
    else
      match goAtoi arg with
      | some n =>
        if 0 < n then parseArgs dirExists rest j d n r
        else if d = "" then
          if dirExists arg then parseArgs dirExists rest j arg p r
          else .missingDir arg
        else parseArgs dirExists rest j d p r
      | none =>
        if d = "" then
          if dirExists arg then parseArgs dirExists rest j arg p r
          else .missingDir arg
        else parseArgs dirExists rest j d p r

/-- Claim C5 is false: with positional arguments `5` then `7`, the loop at
main.go lines 106-120 overwrites `prNumber` on every numeric argument, so
the last numeric argument (7) wins, not the first (5). -/
theorem first_numeric_wins_refuted :
    parseArgs (fun _ => true) ["5", "7"] false "" 0 "" =
      ArgOutcome.proceed false "" 7 "" ∧ (7 : Int) ≠ 5 := by
  constructor
  · decide
  · decide

theorem goAtoi_nonpos_of_dash {s : String} {n : Int}
    (hd : startsWithDash s = true) (ha : goAtoi s = some n) : n ≤ 0 := by
  unfold startsWithDash at hd
  split at hd
  case h_2 => exact absurd hd (by simp)
  case h_1 x tail heq =>
    unfold goAtoi at ha
    rw [heq] at ha
    simp only at ha
    cases htail : tail with
    | nil => rw [htail] at ha; simp at ha
    | cons c2 t2 =>
      rw [htail] at ha
      simp only at ha
      cases hpd : parseDigitsAux (c2 :: t2) 0 with
      | none => rw [hpd] at ha; simp at ha
      | some m =>
        rw [hpd] at ha
        simp at ha
        omega

theorem goAtoi_pos_not_dash {s : String} {n : Int}
    (ha : goAtoi s = some n) (hn : 0 < n) : startsWithDash s = false := by
  cases hval : startsWithDash s with
  | false => rfl
  | true => exact absurd hn (by have := goAtoi_nonpos_of_dash hval ha; omega)

theorem parseArgs_single_numeric (de : String → Bool) (s : String) (n : Int)
    (ha : goAtoi s = some n) (hn : 0 < n) (j : Bool) (d : String) (p : Int) (r : String) :
    parseArgs de [s] j d p r = ArgOutcome.proceed j d n r := by
  have hnd : startsWithDash s = false := goAtoi_pos_not_dash ha hn
  have h1 : ¬(s = "--version" ∨ s = "-v") := by
    rintro (rfl | rfl) <;> exact absurd hnd (by decide)
  have h2 : ¬(s = "--help" ∨ s = "-h") := by
    rintro (rfl | rfl) <;> exact absurd hnd (by decide)
  have h3 : ¬(s = "--json" ∨ s = "-j") := by
    rintro (rfl | rfl) <;> exact absurd hnd (by decide)
  have h4 : ¬(s = "--repo" ∨ s = "-R") := by
    rintro (rfl | rfl) <;> exact absurd hnd (by decide)
  simp only [parseArgs, if_neg h1, if_neg h2, if_neg h3, if_neg h4, hnd,
    Bool.false_eq_true, if_false, ha, if_pos hn]

theorem parseArgs_single_nonnumeric (de : String → Bool) (s : String)
    (ha : goAtoi s = none) (hnd : startsWithDash s = false) (hd : d ≠ "")
    (j : Bool) (p : Int) (r : String) :
    parseArgs de [s] j d p r = ArgOutcome.proceed j d p r := by
  have h1 : ¬(s = "--version" ∨ s = "-v") := by
    rintro (rfl | rfl) <;> exact absurd hnd (by decide)
  have h2 : ¬(s = "--help" ∨ s = "-h") := by
    rintro (rfl | rfl) <;> exact absurd hnd (by decide)
  have h3 : ¬(s = "--json" ∨ s = "-j") := by
    rintro (rfl | rfl) <;> exact absurd hnd (by decide)
  have h4 : ¬(s = "--repo" ∨ s = "-R") := by
    rintro (rfl | rfl) <;> exact absurd hnd (by decide)
  simp only [parseArgs, if_neg h1, if_neg h2, if_neg h3, if_neg h4, hnd,
    Bool.false_eq_true, if_false, ha, if_neg hd]

theorem parseArgs_cons (de : String → Bool) (arg : String) (rest : List String)
    (j : Bool) (d : String) (p : Int) (r : String) :
    parseArgs de (arg :: rest) j d p r =
      (if arg = "--version" ∨ arg = "-v" then ArgOutcome.versionShown
      else if arg = "--help" ∨ arg = "-h" then ArgOutcome.helpShown
      else if arg = "--json" ∨ arg = "-j" then parseArgs de rest true d p r
      else if arg = "--repo" ∨ arg = "-R" then
        match rest with
        | v :: rest2 => parseArgs de rest2 j d p v
        | [] => ArgOutcome.usageError "Error: --repo requires a value"
      else if startsWithDash arg then parseArgs de rest j d p r
      else
        match goAtoi arg with
        | some n =>
          if 0 < n then parseArgs de rest j d n r
          else if d = "" then
            if de arg then parseArgs de rest j arg p r
            else ArgOutcome.missingDir arg
          else parseArgs de rest j d p r
        | none =>
          if d = "" then
            if de arg then parseArgs de rest j arg p r
            else ArgOutcome.missingDir arg
          else parseArgs de rest j d p r) := by
  cases rest <;> rfl

theorem parseArgs_append (de : String → Bool) (s : String) :
    ∀ (args : List String) (j : Bool) (d : String) (p : Int) (r : String)
      (j' : Bool) (d' : String) (p' : Int) (r' : String),
      parseArgs de args j d p r = ArgOutcome.proceed j' d' p' r' →
      parseArgs de (args ++ [s]) j d p r = parseArgs de [s] j' d' p' r' := by
  suffices key : ∀ (k : Nat) (args : List String), args.length ≤ k →
      ∀ (j : Bool) (d : String) (p : Int) (r : String)
        (j' : Bool) (d' : String) (p' : Int) (r' : String),
        parseArgs de args j d p r = ArgOutcome.proceed j' d' p' r' →
        parseArgs de (args ++ [s]) j d p r = parseArgs de [s] j' d' p' r' by
    exact fun args => key args.length args le_rfl
  intro k
  induction k with
  | zero =>
    intro args hlen j d p r j' d' p' r' h
    have hnil : args = [] := List.eq_nil_of_length_eq_zero (Nat.le_zero.mp hlen)
    subst hnil
    simp only [parseArgs, ArgOutcome.proceed.injEq] at h
    obtain ⟨rfl, rfl, rfl, rfl⟩ := h
    rw [List.nil_append]
  | succ k ihk =>
    intro args hlen j d p r j' d' p' r' h
    cases args with
    | nil =>
      simp only [parseArgs, ArgOutcome.proceed.injEq] at h
      obtain ⟨rfl, rfl, rfl, rfl⟩ := h
      rw [List.nil_append]
    | cons a t =>
      have hlt : t.length ≤ k := by
        simp only [List.length_cons] at hlen
        omega
      rw [List.cons_append]
      rw [parseArgs_cons] at h
      rw [parseArgs_cons]
      by_cases h1 : a = "--version" ∨ a = "-v"
      · rw [if_pos h1] at h; simp at h
      · rw [if_neg h1] at h ⊢
        by_cases h2 : a = "--help" ∨ a = "-h"
        · rw [if_pos h2] at h; simp at h
        · rw [if_neg h2] at h ⊢
          by_cases h3 : a = "--json" ∨ a = "-j"
          · rw [if_pos h3] at h ⊢
            exact ihk t hlt true d p r j' d' p' r' h
          · rw [if_neg h3] at h ⊢
            by_cases h4 : a = "--repo" ∨ a = "-R"
            · rw [if_pos h4] at h ⊢
              cases t with
              | nil => simp at h
              | cons v t2 =>
                have hlt2 : t2.length ≤ k := by
                  simp only [List.length_cons] at hlen
                  omega
                rw [List.cons_append]
                exact ihk t2 hlt2 j d p v j' d' p' r' h
            · rw [if_neg h4] at h ⊢
              by_cases h5 : startsWithDash a = true
              · rw [if_pos h5] at h ⊢
                exact ihk t hlt j d p r j' d' p' r' h
              · rw [if_neg h5] at h ⊢
                cases hga : goAtoi a with
                | some m =>
                  rw [hga] at h
                  simp only at h ⊢
                  by_cases hm : 0 < m
                  · rw [if_pos hm] at h ⊢
                    exact ihk t hlt j d m r j' d' p' r' h
                  · rw [if_neg hm] at h ⊢
                    by_cases hdE : d = ""
                    · rw [if_pos hdE] at h ⊢
                      by_cases hex : de a = true
                      · rw [if_pos hex] at h ⊢
                        exact ihk t hlt j a p r j' d' p' r' h
                      · rw [if_neg hex] at h; simp at h
                    · rw [if_neg hdE] at h ⊢
                      exact ihk t hlt j d p r j' d' p' r' h
                | none =>
                  rw [hga] at h
                  simp only at h ⊢
                  by_cases hdE : d = ""
                  · rw [if_pos hdE] at h ⊢
                    by_cases hex : de a = true
                    · rw [if_pos hex] at h ⊢
                      exact ihk t hlt j a p r j' d' p' r' h
                    · rw [if_neg hex] at h; simp at h
                  · rw [if_neg hdE] at h ⊢
                    exact ihk t hlt j d p r j' d' p' r' h

/-- Claim C5 amended: a numeric positional argument overwrites any earlier
PR number, so with several positive-integer positionals the LAST numeric
argument wins (not the first); only the first directory positional is
honored — appending a further non-flag, non-numeric positional once a
target directory is already set leaves the outcome unchanged. -/
theorem positional_args_amended (de : String → Bool) (args : List String)
    (j : Bool) (d : String) (p : Int) (r : String)
    (j' : Bool) (d' : String) (p' : Int) (r' : String)
    (h : parseArgs de args j d p r = ArgOutcome.proceed j' d' p' r') :
    (∀ s n, goAtoi s = some n → 0 < n →
      parseArgs de (args ++ [s]) j d p r = ArgOutcome.proceed j' d' n r') ∧
    (∀ s, startsWithDash s = false → goAtoi s = none → d' ≠ "" →
      parseArgs de (args ++ [s]) j d p r = ArgOutcome.proceed j' d' p' r') := by
  constructor
  · intro s n ha hn
    rw [parseArgs_append de s args j d p r j' d' p' r' h]
    exact parseArgs_single_numeric de s n ha hn j' d' p' r'
  · intro s hnd ha hd
    rw [parseArgs_append de s args j d p r j' d' p' r' h]
    exact parseArgs_single_nonnumeric de s ha hnd hd j' p' r'

theorem positional_args_amended_witness :
    parseArgs (fun _ => true) (["5"] ++ ["7"]) false "" 0 "" =
      ArgOutcome.proceed false "" 7 "" ∧
    parseArgs (fun _ => true) (["dir1", "dir2"] ++ ["dir3"]) false "" 0 "" =
      ArgOutcome.proceed false "dir1" 0 "" := by
  constructor
  · exact (positional_args_amended (fun _ => true) ["5"] false "" 0 ""
      false "" 5 "" (by decide)).1 "7" 7 (by decide) (by decide)
  · exact (positional_args_amended (fun _ => true) ["dir1", "dir2"] false "" 0 ""
      false "dir1" 0 "" (by decide)).2 "dir3" (by decide) (by decide) (by decide)

/-- A JSON value, for modelling the output of `json.MarshalIndent`
(main.go line 186). -/
inductive JValue where
  | null
  | jbool (b : Bool)
  | jnum (n : Int)
  | jstr (s : String)
  | jarr (xs : List JValue)
  | jobj (fields : List (String × JValue))

/-- Emission of a `*int` field without `omitempty`: always present, `null`
when the pointer is nil. -/
def jnullable (v : Option Int) : JValue :=
  match v with
  | none => JValue.null
  | some n => JValue.jnum n

/-- Emission of a `*int` field with `omitempty`: omitted when the pointer is
nil. -/
def optIntField (key : String) (v : Option Int) : List (String × JValue) :=
  match v with
  | none => []
  | some n => [(key, JValue.jnum n)]

/-- Emission of a `string` field with `omitempty`: omitted when empty. -/
def optStrField (key : String) (v : String) : List (String × JValue) :=
  if v = "" then [] else [(key, JValue.jstr v)]

/-- Emission of a `bool` field with `omitempty`: omitted when false. -/
def optBoolField (key : String) (v : Bool) : List (String × JValue) :=
  if v then [(key, JValue.jbool v)] else []

/-- The `encoding/json` emission of one `ReviewComment` per the struct tags
of main.go lines 29-45: fields in declaration order; `line`, `start_line`
and `in_reply_to_id` are `*int` without `omitempty` (always present, `null`
when nil); `original_line` is `*int` WITH `omitempty`; `diff_hunk`,
`author_association`, `outdated` and `subject_type` carry `omitempty`. -/
def marshalReviewComment (c : ReviewComment) : List (String × JValue) :=
  [("id", JValue.jnum c.id), ("body", JValue.jstr c.body),
   ("path", JValue.jstr c.path), ("line", jnullable c.line),
   ("start_line", jnullable c.startLine)] ++
  optIntField "original_line" c.originalLine ++
  optStrField "diff_hunk" c.diffHunk ++
  [("author", JValue.jstr c.author)] ++
  optStrField "author_association" c.authorAssoc ++
  [("state", JValue.jstr c.state), ("in_reply_to_id", jnullable c.inReplyTo),
   ("created_at", JValue.jstr c.createdAt), ("updated_at", JValue.jstr c.updatedAt)] ++
  optBoolField "outdated" c.outdated ++
  optStrField "subject_type" c.subjectType

/-- The `encoding/json` emission of the whole aggregate per the struct tags
of main.go lines 59-66 (no `omitempty` anywhere on `PRFeedback`). -/
def marshalPRFeedback (f : PRFeedback) : JValue :=
  JValue.jobj
    [("pr_number", JValue.jnum f.prNumber), ("title", JValue.jstr f.title),
     ("url", JValue.jstr f.url),
     ("comments", JValue.jarr (f.comments.map (fun c => JValue.jobj (marshalReviewComment c)))),
     ("general_issues", JValue.jarr (f.generalIssues.map (fun c => JValue.jobj (marshalReviewComment c)))),
     ("status_checks", JValue.jarr (f.statusChecks.map (fun s =>
       JValue.jobj ([("name", JValue.jstr s.name), ("status", JValue.jstr s.status),
         ("conclusion", JValue.jstr s.conclusion), ("details_url", JValue.jstr s.detailsURL)] ++
         optStrField "workflow_name" s.workflowName ++
         optStrField "run_id" s.runID ++
         [("started_at", JValue.jstr s.startedAt), ("completed_at", JValue.jstr s.completedAt)] ++
         optStrField "check_command" s.checkCommand))))]

/-- Concrete comment for claim C4's counterexample: no original line. -/
def witnessPlainComment : ReviewComment :=
  { id := 7, body := "b", path := "p", line := some 3, startLine := none,
    originalLine := none, diffHunk := "", author := "alice", authorAssoc := "",
    state := "unresolved", inReplyTo := none, createdAt := "", updatedAt := "",
    outdated := false, subjectType := "" }

/-- Claim C4 is false for `original_line`: its struct tag carries
`omitempty` (main.go line 35), so when the field is absent the key is
omitted from the emitted object instead of being present with value
`null` — unlike `line`, `start_line` and `in_reply_to_id`. -/
theorem original_line_omitted_counterexample :
    List.lookup "original_line" (marshalReviewComment witnessPlainComment) = none ∧
    witnessPlainComment.originalLine = none ∧
    List.lookup "line" (marshalReviewComment witnessPlainComment) ≠ none := by
  refine ⟨rfl, rfl, fun h => Option.noConfusion h⟩

/-- Claim C4 amended: in the emitted comment object, `line`, `start_line`
and `in_reply_to_id` are always present and are `null` exactly when absent;
`original_line` — like the other `omitempty` fields `diff_hunk`,
`author_association`, `outdated` and `subject_type` — is omitted entirely
when absent (respectively zero) rather than emitted as `null`. -/
theorem json_optional_fields (c : ReviewComment) :
    List.lookup "line" (marshalReviewComment c) = some (jnullable c.line) ∧
    (List.lookup "line" (marshalReviewComment c) = some JValue.null ↔ c.line = none) ∧
    List.lookup "start_line" (marshalReviewComment c) = some (jnullable c.startLine) ∧
    (List.lookup "start_line" (marshalReviewComment c) = some JValue.null ↔
      c.startLine = none) ∧
    List.lookup "in_reply_to_id" (marshalReviewComment c) = some (jnullable c.inReplyTo) ∧
    (List.lookup "in_reply_to_id" (marshalReviewComment c) = some JValue.null ↔
      c.inReplyTo = none) ∧
    (List.lookup "original_line" (marshalReviewComment c) =
      match c.originalLine with
      | none => none
      | some n => some (JValue.jnum n)) ∧
    (List.lookup "diff_hunk" (marshalReviewComment c) =
      if c.diffHunk = "" then none else some (JValue.jstr c.diffHunk)) ∧
    (List.lookup "author_association" (marshalReviewComment c) =
      if c.authorAssoc = "" then none else some (JValue.jstr c.authorAssoc)) ∧
    (List.lookup "outdated" (marshalReviewComment c) =
      if c.outdated then some (JValue.jbool true) else none) ∧
    (List.lookup "subject_type" (marshalReviewComment c) =
      if c.subjectType = "" then none else some (JValue.jstr c.subjectType)) := by
  obtain ⟨id, body, path, line, startLine, originalLine, diffHunk, author,
    authorAssoc, state, inReplyTo, createdAt, updatedAt, outdated, subjectType⟩ := c
  simp only [marshalReviewComment, optIntField, optStrField, optBoolField]
  cases originalLine <;> cases outdated <;>
    by_cases hdh : diffHunk = "" <;> by_cases haa : authorAssoc = "" <;>
    by_cases hst : subjectType = "" <;>
    simp [hdh, haa, hst, List.lookup, jnullable] <;>
    (try cases line) <;> (try cases startLine) <;> (try cases inReplyTo) <;>
    simp [jnullable]

/-- ANSI constant `colorReset` (main.go line 17). -/
def colorReset : String := "\x1b[0m"

/-- ANSI constant `colorRed` (main.go line 18). -/
def colorRed : String := "\x1b[31m"

/-- ANSI constant `colorGreen` (main.go line 19). -/
def colorGreen : String := "\x1b[32m"

/-- ANSI constant `colorYellow` (main.go line 20). -/
def colorYellow : String := "\x1b[33m"

/-- ANSI constant `colorBlue` (main.go line 21). -/
def colorBlue : String := "\x1b[34m"

/-- ANSI constant `colorCyan` (main.go line 23). -/
def colorCyan : String := "\x1b[36m"

/-- ANSI constant `colorGray` (main.go line 24). -/
def colorGray : String := "\x1b[90m"

/-- ANSI constant `colorBold` (main.go line 25). -/
def colorBold : String := "\x1b[1m"

/-- Value of one decimal digit character. -/
def digitVal (c : Char) : Option Nat :=
  if c.isDigit then some (c.toNat - 48) else none

/-- Two decimal digit characters as a number. -/
def twoDigits (a b : Char) : Option Nat := do
  let x ← digitVal a
  let y ← digitVal b
  pure (x * 10 + y)

/-- Gregorian leap-year rule. -/
def isLeapYear (y : Nat) : Bool :=
  y % 4 == 0 && (y % 100 != 0 || y % 400 == 0)

/-- Days in a month of the proleptic Gregorian calendar. -/
def daysInMonth (y m : Nat) : Nat :=
  if m = 2 then (if isLeapYear y then 29 else 28)
  else if m = 4 ∨ m = 6 ∨ m = 9 ∨ m = 11 then 30
  else 31

/-- Days in the months before month `m` of year `y`. -/
def daysBeforeMonth (y m : Nat) : Nat :=
  (List.range (m - 1)).foldl (fun acc i => acc + daysInMonth y (i + 1)) 0

/-- Days from 1970-01-01 to the given civil date (year ≥ 1). -/
def daysFromEpoch (y m d : Nat) : Int :=
  let yearsBefore := y - 1
  let leapDays := yearsBefore / 4 - yearsBefore / 100 + yearsBefore / 400
  ((365 * yearsBefore + leapDays + daysBeforeMonth y m + (d - 1) : Nat) : Int) - 719162

/-- Epoch seconds of a range-checked civil timestamp with a UTC offset. -/
def mkEpoch (y mo d h mi se : Nat) (offset : Int) : Option Int :=
  if 1 ≤ y ∧ 1 ≤ mo ∧ mo ≤ 12 ∧ 1 ≤ d ∧ d ≤ daysInMonth y mo ∧
      h ≤ 23 ∧ mi ≤ 59 ∧ se ≤ 59 then
    some (daysFromEpoch y mo d * 86400 + ((h * 3600 + mi * 60 + se : Nat) : Int) - offset)
  else none

/-- Model of the Go standard-library call `time.Parse(time.RFC3339, s)`
wrapped by `parseTime` (main.go lines 602-604), at second granularity:
accepts `YYYY-MM-DDThh:mm:ss` followed by `Z` or a numeric `±hh:mm` offset,
range-checks the calendar fields, and returns epoch seconds.  Fractional
seconds, lowercase `t`/`z`, offset range checks and year 0 are not
modelled; nothing in the claims depends on those corners. -/
def parseTime (s : String) : Option Int :=
  match s.toList with
  | [y1, y2, y3, y4, '-', a1, a2, '-', b1, b2, 'T',
     h1, h2, ':', m1, m2, ':', s1, s2, 'Z'] => do
    let yh ← twoDigits y1 y2
    let yl ← twoDigits y3 y4
    let mo ← twoDigits a1 a2
    let d ← twoDigits b1 b2
    let h ← twoDigits h1 h2
    let mi ← twoDigits m1 m2
    let se ← twoDigits s1 s2
    mkEpoch (yh * 100 + yl) mo d h mi se 0
  | [y1, y2, y3, y4, '-', a1, a2, '-', b1, b2, 'T',
     h1, h2, ':', m1, m2, ':', s1, s2, sg, o1, o2, ':', o3, o4] => do
    let yh ← twoDigits y1 y2
    let yl ← twoDigits y3 y4
    let mo ← twoDigits a1 a2
    let d ← twoDigits b1 b2
    let h ← twoDigits h1 h2
    let mi ← twoDigits m1 m2
    let se ← twoDigits s1 s2
    let oh ← twoDigits o1 o2
    let om ← twoDigits o3 o4
    let off : Int := ((oh * 3600 + om * 60 : Nat) : Int)
    if sg = '+' then mkEpoch (yh * 100 + yl) mo d h mi se off
    else if sg = '-' then mkEpoch (yh * 100 + yl) mo d h mi se (-off)
    else none
  | _ => none

/-- Epoch seconds of Go's zero `time.Time` (0001-01-01T00:00:00 UTC), the
value the `IsZero` tests of main.go line 587 compare against. -/
def goZeroTime : Int := -62135596800

/-- Sanity check of the calendar arithmetic behind `parseTime`. -/
theorem parseTime_sanity :
    parseTime "2024-01-01T00:00:00Z" = some 1704067200 ∧
    parseTime "1970-01-01T00:00:00Z" = some 0 ∧
    parseTime "2024-02-29T12:30:05Z" = some 1709209805 ∧
    parseTime "2023-02-29T00:00:00Z" = none ∧
    parseTime "2024-01-01T01:00:00+01:00" = some 1704067200 ∧
    parseTime "not a time" = none := by
  refine ⟨by decide, by decide, by decide, by decide, by decide, by decide⟩

/-- `formatDuration` (main.go lines 606-614) at second granularity (every
division is only reached for `d ≥ 60`, where Go's float truncation agrees
with integer division). -/
def formatDuration (d : Int) : String :=
  if d < 60 then toString d ++ "s"
  else if d < 3600 then toString (d / 60) ++ "m " ++ toString (d % 60) ++ "s"
  else toString (d / 3600) ++ "h " ++ toString (d / 60 % 60) ++ "m"

/-- Model of the Go standard-library call `strings.ToLower` (ASCII-faithful;
author associations are ASCII constants such as MEMBER or OWNER). -/
def goToLower (s : String) : String :=
  String.mk (s.toList.map Char.toLower)

/-- The separator test of the Go standard-library function `strings.Title`
(ASCII-faithful): ASCII alphanumerics and underscore are not separators. -/
def isSeparatorGo (c : Char) : Bool :=
  if c.toNat ≤ 127 then !(c.isAlphanum || c = '_') else false

/-- The character scan of `strings.Title`, carrying the previous character. -/
def titleMap : Char → List Char → List Char
  | _, [] => []
  | prev, c :: rest =>
    (if isSeparatorGo prev then c.toUpper else c) :: titleMap c rest

/-- Model of the Go standard-library call `strings.Title` (ASCII-faithful):
a character following a separator is mapped to title case; the scan starts
as if following a space. -/
def goTitle (s : String) : String :=
  String.mk (titleMap ' ' s.toList)

/-- The 100-character horizontal rule `strings.Repeat("─", 100)` of
main.go lines 517, 561 and 570. -/
def ruleLine : String := String.join (List.replicate 100 "─")

/-- `strings.Split(s, "\n")` as used for comment bodies and diff hunks. -/
def splitLines (s : String) : List String := goSplit '\n' s

/-- One iteration of `printDiffHunk` (main.go lines 618-633): empty lines
are dropped; the first character selects the style. -/
def renderDiffLine (line : String) : String :=
  match line.toList with
  | [] => ""
  | c :: _ =>
    if c = '+' then "    " ++ colorGreen ++ line ++ colorReset ++ "\n"
    else if c = '-' then "    " ++ colorRed ++ line ++ colorReset ++ "\n"
    else if c = '@' then "    " ++ colorCyan ++ line ++ colorReset ++ "\n"
    else "    " ++ line ++ "\n"

/-- `printDiffHunk` (main.go lines 616-634), returning the printed text. -/
def renderDiffHunk (diffHunk : String) : String :=
  String.join ((splitLines diffHunk).map renderDiffLine)

/-- The relative-time fragment of the general-comment header (main.go lines
498-503): printed only when `created_at` is non-empty and parses; `now` is
the instant `time.Since` reads from the clock mid-render. -/
def agoSuffix (now : Int) (createdAt : String) : String :=
  if createdAt ≠ "" then
    match parseTime createdAt with
    | some t => formatTimeAgo (now - t)
    | none => ""
  else ""

/-- The relative-time fragment of the anchored-comment header (main.go lines
526-531), including its bullet and color wrapping. -/
def commentAgoPart (now : Int) (createdAt : String) : String :=
  if createdAt ≠ "" then
    match parseTime createdAt with
    | some t => " • " ++ colorGray ++ formatTimeAgo (now - t) ++ colorReset
    | none => ""
  else ""

/-- One general-comment block of `printHumanReadable` (main.go lines
491-512). -/
def renderGeneralIssue (now : Int) (review : ReviewComment) : String :=
  colorBold ++ review.author ++ colorReset ++ " commented " ++ colorGray ++ "(" ++
    goTitle (goToLower review.authorAssoc) ++ ")" ++ colorReset ++ " • " ++ colorGray ++
  agoSuffix now review.createdAt ++
  colorReset ++ "\n\n" ++
  String.join ((splitLines review.body).map (fun l => l ++ "\n")) ++ "\n"

/-- One anchored-comment block of `printHumanReadable` (main.go lines
520-557), without the inter-comment separator. -/
def renderComment1 (now : Int) (comment : ReviewComment) : String :=
  colorBold ++ comment.author ++ colorReset ++
  (if comment.authorAssoc ≠ "" ∧ comment.authorAssoc ≠ "NONE" then
    " • " ++ (colorGray ++ goToLower comment.authorAssoc ++ colorReset)
  else "") ++
  commentAgoPart now comment.createdAt ++
  (if comment.outdated then " " ++ colorYellow ++ "• Outdated" ++ colorReset else "") ++
  "\n\n" ++
  String.join ((splitLines comment.body).map (fun l => l ++ "\n")) ++ "\n" ++
  (if comment.path ≠ "" then
    colorBlue ++ comment.path ++
    (match comment.line with
     | some l => if 0 < l then " on line " ++ toString l else ""
     | none => "") ++
    colorReset ++ "\n" ++
    (if comment.diffHunk ≠ "" ∧ comment.outdated = false then
      "\n" ++ renderDiffHunk comment.diffHunk
    else "")
  else "")

/-- The anchored-comment sequence of `printHumanReadable` (main.go lines
520-563): a separator after every block except the last. -/
def renderCommentList (now : Int) : List ReviewComment → String
  | [] => ""
  | [c] => renderComment1 now c
  | c :: c2 :: rest =>
    renderComment1 now c ++ "\n" ++ ruleLine ++ "\n" ++ "\n" ++
      renderCommentList now (c2 :: rest)

/-- One failed-check line of `printHumanReadable` (main.go lines 573-597);
a start or end time that fails to parse is Go's zero time, which `IsZero`
then filters out. -/
def renderCheckLine (check : StatusCheck) : String :=
  (if check.conclusion = "CANCELLED" then colorYellow else colorRed) ++
  (if check.conclusion = "CANCELLED" then "⊘" else "✗") ++
  colorReset ++ " " ++ check.name ++
  (if check.startedAt ≠ "" ∧ check.completedAt ≠ "" then
    match parseTime check.startedAt, parseTime check.completedAt with
    | some st, some en =>
      if st ≠ goZeroTime ∧ en ≠ goZeroTime then
        " " ++ colorGray ++ "(took " ++ formatDuration (en - st) ++ ")" ++ colorReset
      else ""
    | _, _ => ""
  else "") ++
  (if check.checkCommand ≠ "" then
    " → " ++ colorCyan ++ check.checkCommand ++ colorReset
  else "") ++ "\n"

/-- `printHumanReadable` (main.go lines 465-600), returning the text printed
to standard output.  The `now` argument is the instant the two
`time.Since` calls (lines 500 and 528) read from the clock during
rendering. -/
def renderHuman (now : Int) (feedback : PRFeedback) : String :=
  let commentCount := feedback.comments.length + feedback.generalIssues.length
  let checkCount := feedback.statusChecks.length
  colorBold ++ feedback.title ++ " #" ++ toString feedback.prNumber ++ colorReset ++ "\n" ++
  colorGreen ++ "Open" ++ colorReset ++ " • " ++ (colorGray ++ feedback.url ++ colorReset) ++ "\n" ++
  (if 0 < commentCount ∨ 0 < checkCount then
    "\n" ++
    (if 0 < commentCount ∧ 0 < checkCount then
      colorYellow ++ "!" ++ colorReset ++ " Found " ++ toString commentCount ++
        " unresolved comment(s) and " ++ toString checkCount ++ " failing check(s)\n"
    else if 0 < commentCount then
      colorYellow ++ "!" ++ colorReset ++ " Found " ++ toString commentCount ++
        " unresolved comment(s)\n"
    else
      colorRed ++ "X" ++ colorReset ++ " Found " ++ toString checkCount ++
        " failing check(s)\n")
  else "") ++
  "\n" ++
  (if 0 < feedback.comments.length ∨ 0 < feedback.generalIssues.length then
    (if 0 < feedback.generalIssues.length then
      String.join (feedback.generalIssues.map (renderGeneralIssue now))
    else "") ++
    (if 0 < feedback.comments.length then
      ruleLine ++ "\n" ++ "\n" ++ renderCommentList now feedback.comments
    else "")
  else "") ++
  (if 0 < feedback.statusChecks.length then
    "\n" ++ ruleLine ++ "\n" ++ "\n" ++ colorBold ++ "Failed Checks" ++ colorReset ++ "\n\n" ++
    String.join (feedback.statusChecks.map renderCheckLine)
  else "")

theorem agoSuffix_congr (now1 now2 : Int) (ca : String)
    (h : ∀ t, parseTime ca = some t →
      formatTimeAgo (now1 - t) = formatTimeAgo (now2 - t)) :
    agoSuffix now1 ca = agoSuffix now2 ca := by
  unfold agoSuffix
  by_cases hca : ca = ""
  · simp [hca]
  · simp only [ne_eq, hca, not_false_iff, if_true]
    cases hp : parseTime ca with
    | none => rfl
    | some t => exact h t hp

theorem commentAgoPart_congr (now1 now2 : Int) (ca : String)
    (h : ∀ t, parseTime ca = some t →
      formatTimeAgo (now1 - t) = formatTimeAgo (now2 - t)) :
    commentAgoPart now1 ca = commentAgoPart now2 ca := by
  unfold commentAgoPart
  by_cases hca : ca = ""
  · simp [hca]
  · simp only [ne_eq, hca, not_false_iff, if_true]
    cases hp : parseTime ca with
    | none => rfl
    | some t =>
      show " • " ++ colorGray ++ formatTimeAgo (now1 - t) ++ colorReset =
        " • " ++ colorGray ++ formatTimeAgo (now2 - t) ++ colorReset
      rw [h t hp]

theorem renderGeneralIssue_congr (now1 now2 : Int) (g : ReviewComment)
    (h : ∀ t, parseTime g.createdAt = some t →
      formatTimeAgo (now1 - t) = formatTimeAgo (now2 - t)) :
    renderGeneralIssue now1 g = renderGeneralIssue now2 g := by
  unfold renderGeneralIssue
  rw [agoSuffix_congr now1 now2 g.createdAt h]

theorem renderComment1_congr (now1 now2 : Int) (c : ReviewComment)
    (h : ∀ t, parseTime c.createdAt = some t →
      formatTimeAgo (now1 - t) = formatTimeAgo (now2 - t)) :
    renderComment1 now1 c = renderComment1 now2 c := by
  unfold renderComment1
  rw [commentAgoPart_congr now1 now2 c.createdAt h]

theorem renderCommentList_congr (now1 now2 : Int) :
    ∀ cs : List ReviewComment,
      (∀ c ∈ cs, ∀ t, parseTime c.createdAt = some t →
        formatTimeAgo (now1 - t) = formatTimeAgo (now2 - t)) →
      renderCommentList now1 cs = renderCommentList now2 cs := by
  intro cs
  induction cs with
  | nil => intro _; rfl
  | cons c rest ih =>
    intro h
    cases rest with
    | nil =>
      simp only [renderCommentList]
      exact renderComment1_congr now1 now2 c
        (fun t ht => h c (List.mem_cons_self c []) t ht)
    | cons c2 rest2 =>
      simp only [renderCommentList]
      rw [renderComment1_congr now1 now2 c
          (fun t ht => h c (List.mem_cons_self c (c2 :: rest2)) t ht),
        ih (fun x hx t ht => h x (List.mem_cons_of_mem c hx) t ht)]

/-- Claim C3 amended: the human renderer reads the clock during rendering
(`time.Since`, main.go lines 500 and 528) rather than taking a
caller-supplied instant, so its output is a function of the aggregate AND
the render-time instant.  Two renders of the same aggregate are
byte-identical whenever every timestamp's relative-time bucket agrees
between the two instants (in particular whenever the instants coincide);
the structured path depends only on the aggregate (`marshalPRFeedback`
takes no instant).  The counterexample shows two renders of one aggregate
at different instants differing, refuting the claim as stated. -/
theorem render_congruence (f : PRFeedback) (now1 now2 : Int)
    (hg : ∀ g ∈ f.generalIssues, ∀ t, parseTime g.createdAt = some t →
      formatTimeAgo (now1 - t) = formatTimeAgo (now2 - t))
    (hc : ∀ c ∈ f.comments, ∀ t, parseTime c.createdAt = some t →
      formatTimeAgo (now1 - t) = formatTimeAgo (now2 - t)) :
    renderHuman now1 f = renderHuman now2 f := by
  unfold renderHuman
  rw [List.map_congr_left
      (fun g hgm => renderGeneralIssue_congr now1 now2 g (hg g hgm)),
    renderCommentList_congr now1 now2 f.comments hc]

/-- Concrete general comment for claim C3: created 2024-01-01T00:00:00Z. -/
def witnessClockComment : ReviewComment :=
  { id := 1, body := "b", path := "", line := none, startLine := none,
    originalLine := none, diffHunk := "", author := "alice",
    authorAssoc := "MEMBER", state := "unresolved", inReplyTo := none,
    createdAt := "2024-01-01T00:00:00Z", updatedAt := "2024-01-01T00:00:00Z",
    outdated := false, subjectType := "" }

/-- Concrete aggregate for claim C3: one general comment. -/
def witnessClockFeedback : PRFeedback :=
  { prNumber := 1, title := "T", url := "u", comments := [],
    generalIssues := [witnessClockComment], statusChecks := [] }

/-- Claim C3 is false: rendering the same aggregate at two instants 30 and
90 seconds after the comment's creation yields different bytes ("just now"
versus "1 minute ago"), because `printHumanReadable` computes relative
times from a clock read mid-render (`time.Since`), not from a
caller-supplied instant. -/
theorem render_hidden_clock_counterexample :
    renderHuman 1704067230 witnessClockFeedback ≠
      renderHuman 1704067290 witnessClockFeedback := by
  decide

theorem render_congruence_witness :
    renderHuman 1704067230 witnessClockFeedback =
      renderHuman 1704067240 witnessClockFeedback := by
  apply render_congruence
  · intro g hgm t ht
    have hgeq : g = witnessClockComment := by
      simpa [witnessClockFeedback] using hgm
    subst hgeq
    have h0 : parseTime witnessClockComment.createdAt = some 1704067200 := by decide
    rw [h0] at ht
    obtain rfl : (1704067200 : Int) = t := Option.some.inj ht
    decide
  · intro c hcm t ht
    exact absurd hcm (by simp [witnessClockFeedback])
